import Mathlib

/-!
Verification of the CSV ingestion pipeline of the CensoEscolarData repository
(`migrate_csv_to_sqlite.py`, function `migrate_csv`), as a shallow embedding.

Modelling conventions:
* A raw CSV cell is `Option String`; `none` models a pandas missing value
  (`NaN`), which is what `pd.read_csv(..., dtype=str)` produces for an empty
  or blank field and what `Series.get` returns for an absent label.
  `pd.isna` is thus `Option.isNone` on cells.
* The census columns handled by the script (region code, municipality code,
  enrollment counts) hold decimal integers, so the numeric conversions of the
  script (`pd.to_numeric` and Python `int(...)` on a string) are both modelled
  by `pyParseInt`, a parser for optionally signed decimal integer literals
  with surrounding whitespace.  Non-integer numeric text is out of scope of
  this development.
* `pd.read_csv` with `chunksize` yields every chunk with the same header, so a
  run is modelled as one header plus a list of chunks (each a list of rows).
* The connection's `total_changes` delta used by the script to count actual
  inserts is modelled by the insert count returned by `insertOrIgnore`.
* `resolverCalls` and `precheckCalls` are ghost instrumentation counters: they
  count, respectively, the column-resolution events (one per chunk, each
  performing the seven `find_column` lookups of lines 73-79) and the per-row
  `SELECT id FROM tb_instituicao WHERE codigo = ?` existence pre-checks of
  lines 119-121.  They change no other component of the state.
* The `fast` flag only sets PRAGMAs and commits identically per chunk, so it
  is omitted; `load_schema` and the `SourceNotFound` check are outside the
  claims under study.
-/

/-- A raw CSV cell as seen through pandas: `none` is a missing value (NaN). -/
abbrev Cell := Option String

/-- A raw row: an association of column names to cells.  Columns absent from
the list read as missing, mirroring `Series.get` returning NaN/None. -/
abbrev RawRow := List (String × Cell)

/-- Cell lookup in a row (`row.get(col)` in the script): a column that is not
present, or whose cell is a missing value, yields `none`. -/
def RawRow.get (r : RawRow) (c : String) : Cell :=
  match List.lookup c r with
  | some v => v
  | none => none

/-- Python `str(...)` applied to a pandas cell: a string is unchanged and the
missing value NaN prints as `"nan"`. -/
def strCell : Cell → String
  | some s => s
  | none => "nan"

/-- Value of a digit run, most significant first. -/
def digitsToNat (cs : List Char) : Nat :=
  cs.foldl (fun a c => a * 10 + (c.toNat - 48)) 0

/-- ASCII whitespace, the characters Python strips around an integer literal. -/
def isSpaceChar (c : Char) : Bool :=
  c == ' ' || c == '\t' || c == '\n' || c == '\r'

/-- Surrounding-whitespace removal on a character list (structural stand-in
for `String.trim`). -/
def trimChars (l : List Char) : List Char :=
  ((l.dropWhile isSpaceChar).reverse.dropWhile isSpaceChar).reverse

/-- Optionally signed decimal integer parsing with surrounding whitespace:
the common meaning of Python `int(s)` and `pd.to_numeric` on the integer-
valued census columns.  Returns `none` exactly when the text is not an
integer literal (Python raises / `to_numeric` coerces to NaN). -/
def pyParseInt (s : String) : Option Int :=
  match trimChars s.toList with
  | [] => none
  | '-' :: rest =>
      if rest.isEmpty || !(rest.all Char.isDigit) then none
      else some (-(digitsToNat rest : Int))
  | '+' :: rest =>
      if rest.isEmpty || !(rest.all Char.isDigit) then none
      else some ((digitsToNat rest : Int))
  | l =>
      if l.all Char.isDigit then some ((digitsToNat l : Int)) else none

/-- Numeric view of a cell: `pd.to_numeric(..., errors='coerce')` applied to
one entry (NaN stays NaN, unparsable text becomes NaN). -/
def cellNum (c : Cell) : Option Int :=
  c.bind pyParseInt

/-- Candidate header names for the business code (`CANDIDATE_COLUMNS['codigo']`). -/
def CANDIDATE_COLUMNS_codigo : List String :=
  ["CO_ENTIDADE", "CO_ENTIDADE_ESCOLA", "CO_ENTIDADE_MEC", "COD_ENTIDADE",
   "CO_ENTIDADE_ENSINO", "CO_ENTIDADE_CURSO"]

/-- Candidate header names for the name field (`CANDIDATE_COLUMNS['nome']`). -/
def CANDIDATE_COLUMNS_nome : List String :=
  ["NO_ENTIDADE", "NO_ESCOLA", "NOME_ENTIDADE"]

/-- Candidate header names for the region code (`CANDIDATE_COLUMNS['co_uf']`). -/
def CANDIDATE_COLUMNS_co_uf : List String := ["CO_UF"]

/-- Candidate header names for the municipality code. -/
def CANDIDATE_COLUMNS_co_municipio : List String := ["CO_MUNICIPIO"]

/-- Candidate header names for the basic enrollment count. -/
def CANDIDATE_COLUMNS_qt_mat_bas : List String :=
  ["QT_MAT_BAS", "NU_MATRICULAS_BASICA", "QT_MATRICULAS_BAS"]

/-- Candidate header names for the professional enrollment count. -/
def CANDIDATE_COLUMNS_qt_mat_prof : List String :=
  ["QT_MAT_PROF", "NU_MATRICULAS_PROF"]

/-- Candidate header names for the special enrollment count. -/
def CANDIDATE_COLUMNS_qt_mat_esp : List String :=
  ["QT_MAT_ESP", "NU_MATRICULAS_ESP"]

/-- The column resolver (`find_column`, lines 33-37): first candidate present
in the realized header, else unresolved. -/
def find_column (columns : List String) (candidates : List String) : Option String :=
  candidates.find? (fun c => columns.contains c)

/-- The per-chunk resolved field-to-column mapping (lines 73-79): the three
mandatory columns as plain names, the optional ones as `Option`. -/
structure ResolvedCols where
  codigo : String
  nome : String
  co_uf : String
  co_municipio : Option String
  qt_mat_bas : Option String
  qt_mat_prof : Option String
  qt_mat_esp : Option String
deriving DecidableEq

/-- Resolution of all seven fields against a header, `none` when one of the
three mandatory fields (`codigo`, `nome`, `co_uf`) is unresolved — the guard
of line 94. -/
def resolveCols (header : List String) : Option ResolvedCols :=
  match find_column header CANDIDATE_COLUMNS_codigo,
        find_column header CANDIDATE_COLUMNS_nome,
        find_column header CANDIDATE_COLUMNS_co_uf with
  | some c, some n, some u =>
      some { codigo := c, nome := n, co_uf := u,
             co_municipio := find_column header CANDIDATE_COLUMNS_co_municipio,
             qt_mat_bas := find_column header CANDIDATE_COLUMNS_qt_mat_bas,
             qt_mat_prof := find_column header CANDIDATE_COLUMNS_qt_mat_prof,
             qt_mat_esp := find_column header CANDIDATE_COLUMNS_qt_mat_esp }
  | _, _, _ => none

/-- The primary region test (lines 102-103): `pd.to_numeric` on the cell then
`between(lo, hi, inclusive=True)`; NaN (missing or unparsable) fails. -/
def betweenCell (lo hi : Nat) (c : Cell) : Bool :=
  match cellNum c with
  | some n => decide ((lo : Int) ≤ n) && decide (n ≤ (hi : Int))
  | none => false

/-- Stringification of the numeric-coerced column (`astype(str)` in line 106,
which runs after the `pd.to_numeric` assignment of line 102 has already
replaced the column): an integer value prints as `"23.0"` and NaN as `"nan"`,
matching `str` on a pandas float column. -/
def numStr (c : Cell) : String :=
  match cellNum c with
  | some n => toString n ++ ".0"
  | none => "nan"

/-- The stringified range bounds `tuple(str(x) for x in range(21, 30))` of
line 106, generalized to `[lo, hi]`. -/
def boundStrs (lo hi : Nat) : List String :=
  (List.range (hi + 1 - lo)).map (fun i => toString (lo + i))

/-- Character-wise leading-match test: `leadsWith p s` holds when the text `s`
begins with the pattern `p` (structural stand-in for `str.startswith`). -/
def leadsWith : List Char → List Char → Bool
  | [], _ => true
  | _ :: _, [] => false
  | p :: ps, c :: cs => p == c && leadsWith ps cs

/-- The fallback region test of line 106: the stringified numeric value starts
with one of the stringified in-range codes (`str.startswith` on a tuple). -/
def startsWithAnyOf (ps : List String) (s : String) : Bool :=
  ps.any (fun p => leadsWith p.toList s.toList)

/-- The region filter (lines 99-106).  `primaryOk` records whether the primary
numeric path (line 102-103) runs without raising; when it raises at batch
level (`except` of line 104) the string-prefix fallback of line 106 is used
on the already numeric-coerced column. -/
def filterRegion (primaryOk : Bool) (lo hi : Nat) (col : String)
    (rows : List RawRow) : List RawRow :=
  if primaryOk then
    rows.filter (fun r => betweenCell lo hi (r.get col))
  else
    rows.filter (fun r => startsWithAnyOf (boundStrs lo hi) (numStr (r.get col)))

/-- A normalized row as inserted into `tb_instituicao` (the 7-tuple of
line 146; the surrogate `id` is auto-assigned and not modelled). -/
structure DBRow where
  codigo : String
  nome : String
  co_uf : Int
  co_municipio : Int
  qt_mat_bas : Int
  qt_mat_prof : Int
  qt_mat_esp : Int
deriving DecidableEq

/-- Integer coercion of a cell with fallback 0: the `try: int(...) except: 0`
pattern around a `pd.isna` guard (lines 125-144). -/
def coerceInt (c : Cell) : Int :=
  match c with
  | some s => match pyParseInt s with
    | some n => n
    | none => 0
  | none => 0

/-- Coercion through an optionally resolved column: `int(row.get(col)) if col
and not pd.isna(row.get(col)) else 0`, with `except` mapping to 0. -/
def coerceCol (col : Option String) (r : RawRow) : Int :=
  match col with
  | some cc => coerceInt (r.get cc)
  | none => 0

/-- Row normalization (lines 124-146) for a row whose business code cell held
the string `c`: name via `str(...)` (so a missing name prints as `"nan"`),
region code and the optional fields via integer coercion with fallback 0. -/
def normalizeRow (cols : ResolvedCols) (r : RawRow) (c : String) : DBRow :=
  { codigo := c,
    nome := strCell (r.get cols.nome),
    co_uf := coerceInt (r.get cols.co_uf),
    co_municipio := coerceCol cols.co_municipio r,
    qt_mat_bas := coerceCol cols.qt_mat_bas r,
    qt_mat_prof := coerceCol cols.qt_mat_prof r,
    qt_mat_esp := coerceCol cols.qt_mat_esp r }

/-- Whether the store already has a row with this business code (the SELECT of
line 119). -/
def containsCode (db : List DBRow) (c : String) : Bool :=
  db.any (fun t => t.codigo == c)

/-- Modelled from the spec: `schema.sql` (not under `src/`) declares the
uniqueness constraint on `tb_instituicao.codigo` that `INSERT OR IGNORE`
(lines 163-166) relies on.  Sequential conflict-ignoring bulk insert: a tuple
whose code is already present is silently dropped, others are appended; the
second component is the number of rows actually inserted, the
`conn.total_changes` delta of lines 161-173. -/
def insertOrIgnore (db : List DBRow) : List DBRow → List DBRow × Nat
  | [] => (db, 0)
  | t :: ts =>
      if containsCode db t.codigo then insertOrIgnore db ts
      else
        let p := insertOrIgnore (db ++ [t]) ts
        (p.1, p.2 + 1)

/-- The per-row loop of lines 112-147 over the filtered chunk: returns the
insertion list, the number of rows skipped (missing code, line 114-116, or
existence pre-check hit, lines 119-122) and the number of existence
pre-checks performed. -/
def processRows (db : List DBRow) (cols : ResolvedCols) :
    List RawRow → List DBRow × Nat × Nat
  | [] => ([], 0, 0)
  | r :: rs =>
      match r.get cols.codigo with
      | none =>
          let p := processRows db cols rs
          (p.1, p.2.1 + 1, p.2.2)
      | some c =>
          if containsCode db c then
            let p := processRows db cols rs
            (p.1, p.2.1 + 1, p.2.2 + 1)
          else
            let p := processRows db cols rs
            (normalizeRow cols r c :: p.1, p.2.1, p.2.2 + 1)

/-- One line of the per-chunk progress output (line 183).  The script computes
`total rows read` from the already filtered frame, so it equals the filtered
count; `newInserts` is `len(insert_rows)` (the submitted count). -/
structure Report where
  totalInChunk : Nat
  totalFiltered : Nat
  newInserts : Nat
  dupCount : Nat
deriving DecidableEq

/-- Run configuration: the file's header (shared by every chunk pandas
yields), the `filter_nordeste` and `dry_run` flags, and `primaryOk`, the
environmental fact of whether the primary numeric filter path runs without
raising (see `filterRegion`). -/
structure Cfg where
  header : List String
  filterNordeste : Bool
  primaryOk : Bool
  dryRun : Bool
deriving DecidableEq

/-- Accumulated run state: destination table plus the counters of lines 55-57
and the per-chunk reports, with the two ghost instrumentation counters. -/
structure RunState where
  db : List DBRow
  insertedTotal : Nat
  skippedTotal : Nat
  processedTotal : Nat
  reports : List Report
  resolverCalls : Nat
  precheckCalls : Nat
deriving DecidableEq

/-- The chunk narrowed by the region filter when `filter_nordeste` is set
(lines 99-106, with the hardcoded bounds 21 and 29). -/
def chunkFiltered (cfg : Cfg) (cols : ResolvedCols) (rows : List RawRow) :
    List RawRow :=
  if cfg.filterNordeste then filterRegion cfg.primaryOk 21 29 cols.co_uf rows
  else rows

/-- The bulk-write step of lines 151-178: nothing happens on an empty
insertion list (`if insert_rows:`), a dry run writes nothing and reports zero
added (so `dup_count = len(insert_rows)`), otherwise `INSERT OR IGNORE` runs
and `added` is the change-counter delta, `dup_count` the submitted count
minus `added`.  Returns (new store, added, dup_count). -/
def chunkWrite (cfg : Cfg) (db : List DBRow) (ins : List DBRow) :
    List DBRow × Nat × Nat :=
  if ins.isEmpty then (db, 0, 0)
  else if cfg.dryRun then (db, 0, ins.length)
  else
    let p := insertOrIgnore db ins
    (p.1, p.2, ins.length - p.2)

/-- Processing of one chunk (the body of the `for chunk in pd.read_csv(...)`
loop, lines 68-183): count the rows read, resolve the columns against the
header, skip the chunk when a mandatory column is unresolved (line 94-96,
no report line in that case), otherwise filter, normalize, write and report. -/
def processChunk (cfg : Cfg) (st : RunState) (chrows : List RawRow) : RunState :=
  match resolveCols cfg.header with
  | none =>
      { st with processedTotal := st.processedTotal + chrows.length,
                resolverCalls := st.resolverCalls + 1 }
  | some cols =>
      let fr := chunkFiltered cfg cols chrows
      let pr := processRows st.db cols fr
      let wr := chunkWrite cfg st.db pr.1
      { db := wr.1,
        insertedTotal := st.insertedTotal + wr.2.1,
        skippedTotal := st.skippedTotal + pr.2.1,
        processedTotal := st.processedTotal + chrows.length,
        reports := st.reports ++ [⟨fr.length, fr.length, pr.1.length, wr.2.2⟩],
        resolverCalls := st.resolverCalls + 1,
        precheckCalls := st.precheckCalls + pr.2.2 }

/-- Sequential processing of the remaining chunks from a state. -/
def migrateFrom (cfg : Cfg) (st : RunState) : List (List RawRow) → RunState
  | [] => st
  | ch :: rest => migrateFrom cfg (processChunk cfg st ch) rest

/-- Initial run state over a given destination store. -/
def initState (db0 : List DBRow) : RunState :=
  ⟨db0, 0, 0, 0, [], 0, 0⟩

/-- The whole ingestion run `migrate_csv` (lines 47-187) over a destination
store `db0` and the file's chunk sequence. -/
def migrate_csv (cfg : Cfg) (db0 : List DBRow) (chunks : List (List RawRow)) :
    RunState :=
  migrateFrom cfg (initState db0) chunks

/-- A row passing every row-level admission test against a fixed store: its
business-code cell is present and its code is not yet stored.  This is the
membership condition for `insert_rows` when the store does not change. -/
def submittable (db : List DBRow) (cols : ResolvedCols) (r : RawRow) : Bool :=
  match r.get cols.codigo with
  | some c => !containsCode db c
  | none => false

/-- The report line a chunk produces in a dry run, computed directly against
the initial store (which a dry run never changes): filtered count twice, then
the would-insert count both as `new_inserts` and as `dup_count` (in a dry run
`added = 0`, so line 178 makes `dup_count` the submitted count).  `none` when
a mandatory column is unresolved (no report line, line 94-96). -/
def dryChunkReport (cfg : Cfg) (db : List DBRow) (rows : List RawRow) :
    Option Report :=
  match resolveCols cfg.header with
  | none => none
  | some cols =>
      let fr := chunkFiltered cfg cols rows
      let k := (fr.filter (submittable db cols)).length
      some ⟨fr.length, fr.length, k, k⟩

/-- Membership of a code in a plain list of codes (same `==` as the store
membership test). -/
def listHas (l : List String) (c : String) : Bool :=
  l.any (fun x => x == c)

/-- Number of tuples in the list whose code already occurred earlier in the
list, the `seen` accumulator carrying codes already encountered. -/
def dupWithinAux (seen : List String) : List DBRow → Nat
  | [] => 0
  | t :: ts =>
      if listHas seen t.codigo then dupWithinAux seen ts + 1
      else dupWithinAux (t.codigo :: seen) ts

/-- Number of within-list repeats: occurrences of a code beyond its first. -/
def dupWithin (ts : List DBRow) : Nat :=
  dupWithinAux [] ts

/-- An enrollment-count field that cannot be coerced for a row: its column is
unresolved, or the cell is missing, or the text is not an integer literal. -/
def enrollBad (col : Option String) (r : RawRow) : Bool :=
  match col with
  | none => true
  | some cc =>
      match r.get cc with
      | none => true
      | some s => (pyParseInt s).isNone

/-- Header of the concrete example file used by the scenario runs. -/
def exHeader : List String := ["CO_ENTIDADE", "NO_ENTIDADE", "CO_UF"]

/-- Standard configuration: region filter on, primary numeric path working,
writes enabled. -/
def exCfg : Cfg := ⟨exHeader, true, true, false⟩

/-- Configuration in which the primary numeric filter path raises at batch
level, so the string-prefix fallback of line 106 is used. -/
def exCfgFallback : Cfg := ⟨exHeader, true, false, false⟩

/-- First scenario row: code 111, name `Escola A`, region 23. -/
def exRowA : RawRow :=
  [("CO_ENTIDADE", some "111"), ("NO_ENTIDADE", some "Escola A"),
   ("CO_UF", some "23")]

/-- Second scenario row: the same code 111 with a different name. -/
def exRowADup : RawRow :=
  [("CO_ENTIDADE", some "111"), ("NO_ENTIDADE", some "Escola A Dup"),
   ("CO_UF", some "23")]

/-- A distinct row: code 222, region 24. -/
def exRowB : RawRow :=
  [("CO_ENTIDADE", some "222"), ("NO_ENTIDADE", some "B"),
   ("CO_UF", some "24")]

/-- A row whose region code 245 lies outside 21..29 but whose stringified
value starts with `24`. -/
def exRow245 : RawRow :=
  [("CO_ENTIDADE", some "900"), ("NO_ENTIDADE", some "X"),
   ("CO_UF", some "245")]

/-- A row whose name cell is a missing value. -/
def exRowNoName : RawRow :=
  [("CO_ENTIDADE", some "111"), ("CO_UF", some "23")]

/-- The resolved mapping of the example header. -/
def exCols : ResolvedCols :=
  { codigo := "CO_ENTIDADE", nome := "NO_ENTIDADE", co_uf := "CO_UF",
    co_municipio := none, qt_mat_bas := none, qt_mat_prof := none,
    qt_mat_esp := none }

/-- A resolved mapping where `qt_mat_bas` is unresolved and the two other
enrollment columns are resolved. -/
def exColsQt : ResolvedCols :=
  { codigo := "CO_ENTIDADE", nome := "NO_ENTIDADE", co_uf := "CO_UF",
    co_municipio := some "CO_MUNICIPIO", qt_mat_bas := none,
    qt_mat_prof := some "QT_MAT_PROF", qt_mat_esp := some "QT_MAT_ESP" }

/-- A row with a missing `QT_MAT_PROF` cell and an unparsable `QT_MAT_ESP`
cell. -/
def exRowQt : RawRow :=
  [("CO_ENTIDADE", some "111"), ("NO_ENTIDADE", some "Escola A"),
   ("CO_UF", some "23"), ("QT_MAT_ESP", some "x")]

/-- A row whose business-code cell is missing. -/
def exRowNoCode : RawRow :=
  [("NO_ENTIDADE", some "S"), ("CO_UF", some "23")]

/-- The normalized tuple of the first scenario row. -/
def exTupleA : DBRow := ⟨"111", "Escola A", 23, 0, 0, 0, 0⟩

/-- A configuration whose header lacks every `CO_UF` candidate, so the
mandatory region-code column is unresolved. -/
def exCfgNoUF : Cfg := ⟨["CO_ENTIDADE", "NO_ENTIDADE"], true, true, false⟩

/-- A store already holding the code 111 tuple. -/
def exDb1 : List DBRow := [exTupleA]

/-! ### Equation lemmas for the step functions -/

lemma containsCode_append (db : List DBRow) (t : DBRow) (c : String) :
    containsCode (db ++ [t]) c = (containsCode db c || (t.codigo == c)) := by
  simp [containsCode, List.any_append]

lemma processRows_nil (db : List DBRow) (cols : ResolvedCols) :
    processRows db cols [] = ([], 0, 0) := rfl

lemma processRows_cons_none {cols : ResolvedCols} {r : RawRow}
    (db : List DBRow) (rs : List RawRow) (h : r.get cols.codigo = none) :
    processRows db cols (r :: rs) =
      ((processRows db cols rs).1, (processRows db cols rs).2.1 + 1,
        (processRows db cols rs).2.2) := by
  simp [processRows, h]

lemma processRows_cons_hit {cols : ResolvedCols} {r : RawRow} {c : String}
    {db : List DBRow} (rs : List RawRow) (h : r.get cols.codigo = some c)
    (hc : containsCode db c = true) :
    processRows db cols (r :: rs) =
      ((processRows db cols rs).1, (processRows db cols rs).2.1 + 1,
        (processRows db cols rs).2.2 + 1) := by
  simp [processRows, h, hc]

lemma processRows_cons_new {cols : ResolvedCols} {r : RawRow} {c : String}
    {db : List DBRow} (rs : List RawRow) (h : r.get cols.codigo = some c)
    (hc : containsCode db c = false) :
    processRows db cols (r :: rs) =
      (normalizeRow cols r c :: (processRows db cols rs).1,
        (processRows db cols rs).2.1, (processRows db cols rs).2.2 + 1) := by
  simp [processRows, h, hc]

lemma chunkWrite_nil (cfg : Cfg) (db : List DBRow) :
    chunkWrite cfg db [] = (db, 0, 0) := rfl

lemma chunkWrite_dry (cfg : Cfg) (db : List DBRow) (ins : List DBRow)
    (h : cfg.dryRun = true) :
    chunkWrite cfg db ins = (db, 0, ins.length) := by
  cases ins with
  | nil => rfl
  | cons a l => simp [chunkWrite, h]

lemma chunkWrite_wet {cfg : Cfg} (db : List DBRow) {ins : List DBRow}
    (h : cfg.dryRun = false) (hne : ins ≠ []) :
    chunkWrite cfg db ins =
      ((insertOrIgnore db ins).1, (insertOrIgnore db ins).2,
        ins.length - (insertOrIgnore db ins).2) := by
  cases ins with
  | nil => exact absurd rfl hne
  | cons a l => simp [chunkWrite, h]

lemma processChunk_unresolved {cfg : Cfg} (st : RunState) (rows : List RawRow)
    (h : resolveCols cfg.header = none) :
    processChunk cfg st rows =
      { st with processedTotal := st.processedTotal + rows.length,
                resolverCalls := st.resolverCalls + 1 } := by
  unfold processChunk
  rw [h]

lemma processChunk_resolved {cfg : Cfg} {cols : ResolvedCols} (st : RunState)
    (rows : List RawRow) (h : resolveCols cfg.header = some cols) :
    processChunk cfg st rows =
      { db := (chunkWrite cfg st.db
                 (processRows st.db cols (chunkFiltered cfg cols rows)).1).1,
        insertedTotal := st.insertedTotal +
          (chunkWrite cfg st.db
            (processRows st.db cols (chunkFiltered cfg cols rows)).1).2.1,
        skippedTotal := st.skippedTotal +
          (processRows st.db cols (chunkFiltered cfg cols rows)).2.1,
        processedTotal := st.processedTotal + rows.length,
        reports := st.reports ++
          [⟨(chunkFiltered cfg cols rows).length,
            (chunkFiltered cfg cols rows).length,
            (processRows st.db cols (chunkFiltered cfg cols rows)).1.length,
            (chunkWrite cfg st.db
              (processRows st.db cols (chunkFiltered cfg cols rows)).1).2.2⟩],
        resolverCalls := st.resolverCalls + 1,
        precheckCalls := st.precheckCalls +
          (processRows st.db cols (chunkFiltered cfg cols rows)).2.2 } := by
  unfold processChunk
  rw [h]

lemma migrateFrom_nil (cfg : Cfg) (st : RunState) :
    migrateFrom cfg st [] = st := rfl

lemma migrateFrom_cons (cfg : Cfg) (st : RunState) (ch : List RawRow)
    (rest : List (List RawRow)) :
    migrateFrom cfg st (ch :: rest) =
      migrateFrom cfg (processChunk cfg st ch) rest := rfl

/-! ### Store growth and coverage -/

lemma insertOrIgnore_mono {db : List DBRow} {c : String} (ts : List DBRow)
    (h : containsCode db c = true) :
    containsCode (insertOrIgnore db ts).1 c = true := by
  induction ts generalizing db with
  | nil => simpa [insertOrIgnore] using h
  | cons t ts ih =>
      unfold insertOrIgnore
      by_cases hc : containsCode db t.codigo = true
      · rw [if_pos hc]; exact ih h
      · rw [if_neg hc]
        exact ih (by rw [containsCode_append, h]; rfl)

lemma insertOrIgnore_covers {db : List DBRow} (ts : List DBRow) :
    ∀ t ∈ ts, containsCode (insertOrIgnore db ts).1 t.codigo = true := by
  induction ts generalizing db with
  | nil => intro t ht; cases ht
  | cons a ts ih =>
      intro t ht
      unfold insertOrIgnore
      by_cases hc : containsCode db a.codigo = true
      · rw [if_pos hc]
        rcases List.mem_cons.mp ht with rfl | ht'
        · exact insertOrIgnore_mono ts hc
        · exact ih t ht'
      · rw [if_neg hc]
        rcases List.mem_cons.mp ht with rfl | ht'
        · exact insertOrIgnore_mono ts (by rw [containsCode_append]; simp)
        · exact ih t ht'

lemma normalizeRow_codigo (cols : ResolvedCols) (r : RawRow) (c : String) :
    (normalizeRow cols r c).codigo = c := rfl

lemma processRows_covers {cols : ResolvedCols} {db : List DBRow}
    (rows : List RawRow) :
    ∀ r ∈ rows, ∀ c, r.get cols.codigo = some c →
      containsCode db c = true ∨
        ∃ t ∈ (processRows db cols rows).1, t.codigo = c := by
  induction rows with
  | nil => intro r hr; cases hr
  | cons a rows ih =>
      intro r hr c hc
      rcases List.mem_cons.mp hr with rfl | hr'
      · by_cases hdb : containsCode db c = true
        · exact Or.inl hdb
        · refine Or.inr ⟨normalizeRow cols r c, ?_, rfl⟩
          rw [processRows_cons_new rows hc (Bool.not_eq_true _ ▸ hdb)]
          exact List.mem_cons_self _ _
      · rcases ih r hr' c hc with hdb | ⟨t, ht, hcode⟩
        · exact Or.inl hdb
        · refine Or.inr ⟨t, ?_, hcode⟩
          cases hg : RawRow.get a cols.codigo with
          | none => rw [processRows_cons_none db rows hg]; exact ht
          | some c₂ =>
              by_cases hdb : containsCode db c₂ = true
              · rw [processRows_cons_hit rows hg hdb]; exact ht
              · rw [processRows_cons_new rows hg (Bool.not_eq_true _ ▸ hdb)]
                exact List.mem_cons_of_mem _ ht

lemma processRows_nop {cols : ResolvedCols} {db : List DBRow}
    (rows : List RawRow)
    (h : ∀ r ∈ rows, ∀ c, r.get cols.codigo = some c →
           containsCode db c = true) :
    (processRows db cols rows).1 = [] := by
  induction rows with
  | nil => rfl
  | cons a rows ih =>
      cases hg : RawRow.get a cols.codigo with
      | none =>
          rw [processRows_cons_none db rows hg]
          exact ih (fun r hr => h r (List.mem_cons_of_mem _ hr))
      | some c =>
          rw [processRows_cons_hit rows hg (h a (List.mem_cons_self _ _) c hg)]
          exact ih (fun r hr => h r (List.mem_cons_of_mem _ hr))

lemma processRows_fresh {cols : ResolvedCols} {db : List DBRow}
    (rows : List RawRow) :
    ∀ t ∈ (processRows db cols rows).1, containsCode db t.codigo = false := by
  induction rows with
  | nil => intro t ht; cases ht
  | cons a rows ih =>
      intro t ht
      cases hg : RawRow.get a cols.codigo with
      | none =>
          rw [processRows_cons_none db rows hg] at ht
          exact ih t ht
      | some c =>
          by_cases hdb : containsCode db c = true
          · rw [processRows_cons_hit rows hg hdb] at ht
            exact ih t ht
          · have hdb' : containsCode db c = false := Bool.not_eq_true _ ▸ hdb
            rw [processRows_cons_new rows hg hdb'] at ht
            rcases List.mem_cons.mp ht with rfl | ht'
            · exact hdb'
            · exact ih t ht'

lemma insertOrIgnore_cons_hit {db : List DBRow} {t : DBRow} (ts : List DBRow)
    (h : containsCode db t.codigo = true) :
    insertOrIgnore db (t :: ts) = insertOrIgnore db ts := by
  simp [insertOrIgnore, h]

lemma insertOrIgnore_cons_new {db : List DBRow} {t : DBRow} (ts : List DBRow)
    (h : containsCode db t.codigo = false) :
    insertOrIgnore db (t :: ts) =
      ((insertOrIgnore (db ++ [t]) ts).1,
        (insertOrIgnore (db ++ [t]) ts).2 + 1) := by
  simp [insertOrIgnore, h]

lemma processChunk_resolverCalls (cfg : Cfg) (st : RunState)
    (rows : List RawRow) :
    (processChunk cfg st rows).resolverCalls = st.resolverCalls + 1 := by
  cases h : resolveCols cfg.header with
  | none => rw [processChunk_unresolved st rows h]
  | some cols => rw [processChunk_resolved st rows h]

lemma migrateFrom_resolverCalls (cfg : Cfg) (chunks : List (List RawRow)) :
    ∀ st : RunState,
      (migrateFrom cfg st chunks).resolverCalls =
        st.resolverCalls + chunks.length := by
  induction chunks with
  | nil => intro st; simp [migrateFrom_nil]
  | cons ch rest ih =>
      intro st
      rw [migrateFrom_cons, ih, processChunk_resolverCalls]
      simp [List.length_cons]
      omega

lemma chunkWrite_db_mono {cfg : Cfg} {db : List DBRow} {c : String}
    (ins : List DBRow) (h : containsCode db c = true) :
    containsCode (chunkWrite cfg db ins).1 c = true := by
  unfold chunkWrite
  by_cases he : ins.isEmpty = true
  · rw [if_pos he]; exact h
  · rw [if_neg he]
    by_cases hd : cfg.dryRun = true
    · rw [if_pos hd]; exact h
    · rw [if_neg hd]; exact insertOrIgnore_mono ins h

lemma chunkWrite_covers {cfg : Cfg} {db : List DBRow} {ins : List DBRow}
    (hd : cfg.dryRun = false) :
    ∀ t ∈ ins, containsCode (chunkWrite cfg db ins).1 t.codigo = true := by
  intro t ht
  have hne : ins ≠ [] := by intro e; rw [e] at ht; cases ht
  rw [chunkWrite_wet db hd hne]
  exact insertOrIgnore_covers ins t ht

lemma processChunk_db_mono {cfg : Cfg} {st : RunState} {rows : List RawRow}
    {c : String} (h : containsCode st.db c = true) :
    containsCode (processChunk cfg st rows).db c = true := by
  cases hres : resolveCols cfg.header with
  | none => rw [processChunk_unresolved st rows hres]; exact h
  | some cols =>
      rw [processChunk_resolved st rows hres]
      exact chunkWrite_db_mono _ h

lemma processChunk_covers {cfg : Cfg} {cols : ResolvedCols} {st : RunState}
    {rows : List RawRow} (hd : cfg.dryRun = false)
    (hres : resolveCols cfg.header = some cols) :
    ∀ r ∈ chunkFiltered cfg cols rows, ∀ c, r.get cols.codigo = some c →
      containsCode (processChunk cfg st rows).db c = true := by
  intro r hr c hc
  rw [processChunk_resolved st rows hres]
  rcases processRows_covers _ r hr c hc with hdb | ⟨t, ht, rfl⟩
  · exact chunkWrite_db_mono _ hdb
  · exact chunkWrite_covers hd t ht

lemma processChunk_nop {cfg : Cfg} {st : RunState} {rows : List RawRow}
    (h : ∀ cols, resolveCols cfg.header = some cols →
           ∀ r ∈ chunkFiltered cfg cols rows, ∀ c,
             r.get cols.codigo = some c → containsCode st.db c = true) :
    (processChunk cfg st rows).db = st.db ∧
    (processChunk cfg st rows).insertedTotal = st.insertedTotal ∧
    ∀ rep ∈ (processChunk cfg st rows).reports,
      rep ∈ st.reports ∨ rep.dupCount = 0 := by
  cases hres : resolveCols cfg.header with
  | none =>
      rw [processChunk_unresolved st rows hres]
      exact ⟨rfl, rfl, fun rep hrep => Or.inl hrep⟩
  | some cols =>
      have hins : (processRows st.db cols (chunkFiltered cfg cols rows)).1 = [] :=
        processRows_nop _ (h cols hres)
      rw [processChunk_resolved st rows hres, hins, chunkWrite_nil]
      refine ⟨rfl, rfl, ?_⟩
      intro rep hrep
      rcases List.mem_append.mp hrep with h1 | h2
      · exact Or.inl h1
      · right
        rcases List.mem_singleton.mp h2 with rfl
        rfl

lemma migrateFrom_db_mono {cfg : Cfg} {c : String}
    (chunks : List (List RawRow)) :
    ∀ st : RunState, containsCode st.db c = true →
      containsCode (migrateFrom cfg st chunks).db c = true := by
  induction chunks with
  | nil => intro st h; exact h
  | cons ch rest ih =>
      intro st h
      rw [migrateFrom_cons]
      exact ih _ (processChunk_db_mono h)

lemma migrateFrom_covers {cfg : Cfg} (hd : cfg.dryRun = false)
    (chunks : List (List RawRow)) :
    ∀ st : RunState, ∀ ch ∈ chunks, ∀ cols,
      resolveCols cfg.header = some cols →
      ∀ r ∈ chunkFiltered cfg cols ch, ∀ c, r.get cols.codigo = some c →
        containsCode (migrateFrom cfg st chunks).db c = true := by
  induction chunks with
  | nil => intro st ch hch; cases hch
  | cons ch0 rest ih =>
      intro st ch hch cols hres r hr c hc
      rw [migrateFrom_cons]
      rcases List.mem_cons.mp hch with rfl | hch'
      · exact migrateFrom_db_mono rest _ (processChunk_covers hd hres r hr c hc)
      · exact ih _ ch hch' cols hres r hr c hc

lemma migrateFrom_nop {cfg : Cfg} (chunks : List (List RawRow)) :
    ∀ st : RunState,
      (∀ ch ∈ chunks, ∀ cols, resolveCols cfg.header = some cols →
        ∀ r ∈ chunkFiltered cfg cols ch, ∀ c, r.get cols.codigo = some c →
          containsCode st.db c = true) →
      (migrateFrom cfg st chunks).db = st.db ∧
      (migrateFrom cfg st chunks).insertedTotal = st.insertedTotal ∧
      ∀ rep ∈ (migrateFrom cfg st chunks).reports,
        rep ∈ st.reports ∨ rep.dupCount = 0 := by
  induction chunks with
  | nil => intro st _; exact ⟨rfl, rfl, fun rep hrep => Or.inl hrep⟩
  | cons ch0 rest ih =>
      intro st h
      rw [migrateFrom_cons]
      obtain ⟨hdb, hins, hrep⟩ := processChunk_nop (h ch0 (List.mem_cons_self _ _))
      obtain ⟨hdb', hins', hrep'⟩ := ih (processChunk cfg st ch0)
        (fun ch hch cols hres r hr c hc => by
          rw [hdb]
          exact h ch (List.mem_cons_of_mem _ hch) cols hres r hr c hc)
      refine ⟨hdb'.trans hdb, hins'.trans hins, ?_⟩
      intro rep hr2
      rcases hrep' rep hr2 with hmem | hz
      · rcases hrep rep hmem with hmem2 | hz2
        · exact Or.inl hmem2
        · exact Or.inr hz2
      · exact Or.inr hz

/-! ### Dry-run behaviour -/

lemma processRows_len {cols : ResolvedCols} {db : List DBRow}
    (rows : List RawRow) :
    (processRows db cols rows).1.length =
      (rows.filter (submittable db cols)).length := by
  induction rows with
  | nil => rfl
  | cons a rows ih =>
      cases hg : RawRow.get a cols.codigo with
      | none =>
          have hs : submittable db cols a = false := by simp [submittable, hg]
          rw [processRows_cons_none db rows hg]
          simp [List.filter_cons, hs, ih]
      | some c =>
          by_cases hdb : containsCode db c = true
          · have hs : submittable db cols a = false := by
              simp [submittable, hg, hdb]
            rw [processRows_cons_hit rows hg hdb]
            simp [List.filter_cons, hs, ih]
          · have hdb' : containsCode db c = false := by
              revert hdb; cases containsCode db c <;> simp
            have hs : submittable db cols a = true := by
              simp [submittable, hg, hdb']
            rw [processRows_cons_new rows hg hdb']
            simp [List.filter_cons, hs, ih]

lemma processChunk_dry {cfg : Cfg} (hd : cfg.dryRun = true) (st : RunState)
    (rows : List RawRow) :
    (processChunk cfg st rows).db = st.db ∧
    (processChunk cfg st rows).insertedTotal = st.insertedTotal ∧
    (processChunk cfg st rows).processedTotal =
      st.processedTotal + rows.length ∧
    (processChunk cfg st rows).reports =
      st.reports ++ (dryChunkReport cfg st.db rows).toList := by
  cases hres : resolveCols cfg.header with
  | none =>
      rw [processChunk_unresolved st rows hres]
      simp [dryChunkReport, hres]
  | some cols =>
      rw [processChunk_resolved st rows hres, chunkWrite_dry _ _ _ hd]
      refine ⟨rfl, rfl, rfl, ?_⟩
      simp [dryChunkReport, hres, processRows_len]

lemma migrateFrom_dry {cfg : Cfg} (hd : cfg.dryRun = true)
    (chunks : List (List RawRow)) :
    ∀ st : RunState,
      (migrateFrom cfg st chunks).db = st.db ∧
      (migrateFrom cfg st chunks).insertedTotal = st.insertedTotal ∧
      (migrateFrom cfg st chunks).processedTotal =
        st.processedTotal + (chunks.map List.length).sum ∧
      (migrateFrom cfg st chunks).reports =
        st.reports ++ chunks.filterMap (dryChunkReport cfg st.db) := by
  induction chunks with
  | nil => intro st; refine ⟨rfl, rfl, by simp [migrateFrom_nil], by simp [migrateFrom_nil]⟩
  | cons ch rest ih =>
      intro st
      rw [migrateFrom_cons]
      obtain ⟨h1, h2, h3, h4⟩ := processChunk_dry hd st ch
      obtain ⟨g1, g2, g3, g4⟩ := ih (processChunk cfg st ch)
      refine ⟨g1.trans h1, g2.trans h2, ?_, ?_⟩
      · rw [g3, h3]; simp [Nat.add_assoc]
      · rw [g4, h4, h1, List.append_assoc]
        congr 1
        cases hdr : dryChunkReport cfg st.db ch <;>
          simp [List.filterMap_cons, hdr]

/-! ### Duplicate accounting -/

lemma listHas_cons (x : String) (l : List String) (c : String) :
    listHas (x :: l) c = ((x == c) || listHas l c) := by
  simp [listHas, List.any_cons]

lemma dupWithinAux_cons_hit {seen : List String} {t : DBRow}
    (ts : List DBRow) (h : listHas seen t.codigo = true) :
    dupWithinAux seen (t :: ts) = dupWithinAux seen ts + 1 := by
  simp [dupWithinAux, h]

lemma dupWithinAux_cons_new {seen : List String} {t : DBRow}
    (ts : List DBRow) (h : listHas seen t.codigo = false) :
    dupWithinAux seen (t :: ts) = dupWithinAux (t.codigo :: seen) ts := by
  simp [dupWithinAux, h]

lemma dupWithinAux_le (ts : List DBRow) :
    ∀ seen : List String, dupWithinAux seen ts ≤ ts.length := by
  induction ts with
  | nil => intro seen; exact Nat.le_refl 0
  | cons t ts ih =>
      intro seen
      unfold dupWithinAux
      by_cases h : listHas seen t.codigo = true
      · rw [if_pos h]
        exact Nat.succ_le_succ (ih seen)
      · rw [if_neg h]
        exact Nat.le_succ_of_le (ih (t.codigo :: seen))

lemma insertOrIgnore_count (ts : List DBRow) :
    ∀ (db : List DBRow) (seen : List String),
      (∀ t ∈ ts, containsCode db t.codigo = listHas seen t.codigo) →
      (insertOrIgnore db ts).2 = ts.length - dupWithinAux seen ts := by
  induction ts with
  | nil => intro db seen _; rfl
  | cons t ts ih =>
      intro db seen h
      have h0 := h t (List.mem_cons_self _ _)
      by_cases hs : listHas seen t.codigo = true
      · rw [insertOrIgnore_cons_hit ts (h0.trans hs)]
        rw [ih db seen (fun t' ht' => h t' (List.mem_cons_of_mem _ ht'))]
        rw [dupWithinAux_cons_hit ts hs]
        have := dupWithinAux_le ts seen
        simp only [List.length_cons]
        omega
      · have hs' : listHas seen t.codigo = false := by
          revert hs; cases listHas seen t.codigo <;> simp
        rw [insertOrIgnore_cons_new ts (h0.trans hs')]
        have hnew : ∀ t' ∈ ts,
            containsCode (db ++ [t]) t'.codigo =
              listHas (t.codigo :: seen) t'.codigo := by
          intro t' ht'
          rw [containsCode_append, h t' (List.mem_cons_of_mem _ ht'),
            listHas_cons]
          exact Bool.or_comm _ _
        show (insertOrIgnore (db ++ [t]) ts).2 + 1 = _
        rw [ih (db ++ [t]) (t.codigo :: seen) hnew]
        rw [dupWithinAux_cons_new ts hs']
        have := dupWithinAux_le ts (t.codigo :: seen)
        simp only [List.length_cons]
        omega

lemma coerceCol_bad {col : Option String} {r : RawRow}
    (h : enrollBad col r = true) : coerceCol col r = 0 := by
  cases col with
  | none => rfl
  | some cc =>
      cases hg : RawRow.get r cc with
      | none => simp [coerceCol, coerceInt, hg]
      | some s =>
          have hp : pyParseInt s = none := by
            have h2 : (pyParseInt s).isNone = true := by
              simpa [enrollBad, hg] using h
            exact Option.isNone_iff_eq_none.mp h2
          simp [coerceCol, coerceInt, hg, hp]

/-! ### Claims -/

/-- C1, counterexample: resubmitting the same single-row file to the store
produced by a first run yields zero new inserts and an unchanged store, but
the resubmitted row is counted as skipped by the per-row existence pre-check
and the reported duplicate count is 0, not 1 — contradicting the claim that
every resubmitted row is reported as a duplicate. -/
theorem claim_C1_counterexample :
    (migrate_csv exCfg (migrate_csv exCfg [] [[exRowA]]).db [[exRowA]]).insertedTotal = 0 ∧
    (migrate_csv exCfg (migrate_csv exCfg [] [[exRowA]]).db [[exRowA]]).skippedTotal = 1 ∧
    (migrate_csv exCfg (migrate_csv exCfg [] [[exRowA]]).db [[exRowA]]).reports.map
        Report.dupCount = [0] ∧
    ¬((migrate_csv exCfg (migrate_csv exCfg [] [[exRowA]]).db [[exRowA]]).reports.map
        Report.dupCount = [1]) := by
  decide

/-- C1, amended: running the ingestion a second time with the same source
chunks against the store produced by the first (write-enabled) run leaves the
store unchanged and the second run reports zero new inserts and zero
duplicates in every chunk report; each resubmitted row with a present
business code is absorbed by the per-row existence pre-check, which counts it
as skipped rather than as a duplicate. -/
theorem claim_C1_amended_second_run_noop (header : List String)
    (fN pOk : Bool) (db0 : List DBRow) (chunks : List (List RawRow)) :
    let cfg : Cfg := ⟨header, fN, pOk, false⟩
    let st1 := migrate_csv cfg db0 chunks
    let st2 := migrate_csv cfg st1.db chunks
    st2.db = st1.db ∧ st2.insertedTotal = 0 ∧
      (st2.reports.all fun rep => rep.dupCount == 0) = true := by
  intro cfg st1 st2
  have hcov : ∀ ch ∈ chunks, ∀ cols, resolveCols cfg.header = some cols →
      ∀ r ∈ chunkFiltered cfg cols ch, ∀ c, RawRow.get r cols.codigo = some c →
        containsCode (initState st1.db).db c = true := by
    intro ch hch cols hres r hr c hc
    exact migrateFrom_covers rfl chunks (initState db0) ch hch cols hres r hr c hc
  obtain ⟨h1, h2, h3⟩ := migrateFrom_nop chunks (initState st1.db) hcov
  refine ⟨h1, h2, ?_⟩
  rw [List.all_eq_true]
  intro rep hrep
  rcases h3 rep hrep with hmem | hz
  · exact absurd hmem (List.not_mem_nil rep)
  · simp [hz]

/-- C2, counterexample: on the 2-row scenario chunk the script performs one
`SELECT`-based existence pre-check per row (two in total), contradicting the
claim that the rows are written without checking each row's existence in the
store beforehand. -/
theorem claim_C2_counterexample :
    (migrate_csv exCfg [] [[exRowA, exRowADup]]).precheckCalls = 2 ∧
    (migrate_csv exCfg [] [[exRowA, exRowADup]]).precheckCalls ≠ 0 := by
  decide

/-- C2, amended: rows whose code is already stored are first excluded by a
per-row existence pre-check; the remaining rows are submitted to one
conflict-ignoring bulk write, inserted is the change-counter delta and the
duplicate count is submitted minus inserted.  The 2-row batch repeating code
111 yields exactly 1 insert and 1 duplicate (report line `(2, 2, 2, 1)`),
the store keeps the first occurrence's name, and both rows were pre-checked. -/
theorem claim_C2_amended_scenario :
    (migrate_csv exCfg [] [[exRowA, exRowADup]]).insertedTotal = 1 ∧
    (migrate_csv exCfg [] [[exRowA, exRowADup]]).reports = [⟨2, 2, 2, 1⟩] ∧
    (migrate_csv exCfg [] [[exRowA, exRowADup]]).db = [exTupleA] ∧
    (migrate_csv exCfg [] [[exRowA, exRowADup]]).skippedTotal = 0 ∧
    (migrate_csv exCfg [] [[exRowA, exRowADup]]).precheckCalls = 2 := by
  decide

/-- C3, counterexample: when the primary numeric filter path raises and the
string-prefix fallback of line 106 is used, a row with region value 245 is
retained and ingested (since `"245.0"` starts with `"24"`) although 245 is
outside the inclusive range 21..29 — contradicting the claim that no
out-of-range row is ever retained. -/
theorem claim_C3_counterexample :
    (migrate_csv exCfgFallback [] [[exRow245]]).db.map DBRow.co_uf = [245] ∧
    ¬((245 : Int) ≤ 29) := by
  decide

/-- C3, amended: under the primary numeric strategy every row retained by the
region filter has a region cell that parses to a number within the inclusive
bounds, and rows with missing, unparsable or out-of-range values are
excluded; the guarantee does not extend to the string-prefix fallback. -/
theorem claim_C3_amended_primary_in_range (lo hi : Nat) (col : String)
    (rows : List RawRow) (r : RawRow)
    (h : r ∈ filterRegion true lo hi col rows) :
    ∃ n : Int, cellNum (r.get col) = some n ∧
      (lo : Int) ≤ n ∧ n ≤ (hi : Int) := by
  unfold filterRegion at h
  rw [if_pos rfl] at h
  have hb := (List.mem_filter.mp h).2
  unfold betweenCell at hb
  cases hn : cellNum (RawRow.get r col) with
  | none => rw [hn] at hb; cases hb
  | some n =>
      rw [hn] at hb
      simp at hb
      exact ⟨n, rfl, hb.1, hb.2⟩

/-- C3, witness: the scenario row with region 23 is retained by the primary
filter over 21..29 and its cell indeed parses into the range. -/
theorem claim_C3_amended_witness :
    ∃ n : Int, cellNum (RawRow.get exRowA "CO_UF") = some n ∧
      (21 : Int) ≤ n ∧ n ≤ (29 : Int) :=
  claim_C3_amended_primary_in_range 21 29 "CO_UF" [exRowA] exRowA (by decide)

/-- C4, counterexample: a two-chunk run invokes the column resolver twice
(once per chunk), contradicting the claim that it is invoked exactly once per
run. -/
theorem claim_C4_counterexample :
    (migrate_csv exCfg [] [[exRowA], [exRowB]]).resolverCalls = 2 ∧
    (migrate_csv exCfg [] [[exRowA], [exRowB]]).resolverCalls ≠ 1 := by
  decide

/-- C4, amended: the column resolver is re-invoked for every batch of a run,
against that batch's header (the number of resolution events equals the
number of chunks); since every chunk of one file carries the same header the
resulting mapping is the same each time, but it is recomputed, not cached —
only the diagnostic printout of the mapping happens once. -/
theorem claim_C4_amended_resolver_per_chunk (header : List String)
    (fN pOk dr : Bool) (db0 : List DBRow) (chunks : List (List RawRow)) :
    (migrate_csv ⟨header, fN, pOk, dr⟩ db0 chunks).resolverCalls =
      chunks.length := by
  have h := migrateFrom_resolverCalls ⟨header, fN, pOk, dr⟩ chunks (initState db0)
  simpa [migrate_csv, initState] using h

/-- C5, confirmed: a dry run never writes (the store is returned unchanged),
the reported total insert count is zero, the processed-rows total is the
exact number of rows read across all chunks, and every chunk report carries
the counts computed against the untouched initial store: the filtered length
twice and the would-insert count (rows passing the filter whose present code
is not yet stored) as both `new_inserts` and `dup_count`. -/
theorem claim_C5_dry_run_frame (header : List String) (fN pOk : Bool)
    (db0 : List DBRow) (chunks : List (List RawRow)) :
    let cfg : Cfg := ⟨header, fN, pOk, true⟩
    let st := migrate_csv cfg db0 chunks
    st.db = db0 ∧ st.insertedTotal = 0 ∧
      st.processedTotal = (chunks.map List.length).sum ∧
      st.reports = chunks.filterMap (dryChunkReport cfg db0) := by
  intro cfg st
  obtain ⟨h1, h2, h3, h4⟩ := @migrateFrom_dry cfg rfl chunks (initState db0)
  refine ⟨h1, h2, ?_, ?_⟩
  · simpa [initState] using h3
  · simpa [initState] using h4

/-- C6, counterexample: a retained row whose name cell is missing is stored
with the name `"nan"` (the stringification of the pandas missing value), not
the empty string — contradicting the claim that an absent name defaults to
`""`. -/
theorem claim_C6_counterexample :
    (migrate_csv exCfg [] [[exRowNoName]]).db.map DBRow.nome = ["nan"] ∧
    ¬((migrate_csv exCfg [] [[exRowNoName]]).db.map DBRow.nome = [""]) := by
  decide

/-- C6, amended: for every retained row whose name cell is missing, the
normalized tuple carries the string `"nan"` as the name (the `''` default of
line 124 applies only when the name column itself is unresolved, a case that
instead skips the whole batch at line 94). -/
theorem claim_C6_amended_missing_name_nan (cols : ResolvedCols) (r : RawRow)
    (c : String) (h : r.get cols.nome = none) :
    (normalizeRow cols r c).nome = "nan" := by
  show strCell (RawRow.get r cols.nome) = "nan"
  rw [h]
  rfl

/-- C6, witness: the concrete row without a name cell normalizes to the name
`"nan"`. -/
theorem claim_C6_amended_witness :
    RawRow.get exRowNoName exCols.nome = none ∧
    (normalizeRow exCols exRowNoName "111").nome = "nan" :=
  ⟨by decide, claim_C6_amended_missing_name_nan exCols exRowNoName "111" (by decide)⟩

/-- C7, confirmed: a row whose business-code cell is missing contributes
nothing to the insertion list (so it can never reach the destination table),
is counted once in the skipped tally, triggers no existence pre-check, and
the remaining rows of the batch are processed exactly as without it — the
batch is not aborted. -/
theorem claim_C7_missing_code_skipped (db : List DBRow) (cols : ResolvedCols)
    (r : RawRow) (rs : List RawRow) (h : r.get cols.codigo = none) :
    processRows db cols (r :: rs) =
      ((processRows db cols rs).1, (processRows db cols rs).2.1 + 1,
        (processRows db cols rs).2.2) :=
  processRows_cons_none db rs h

/-- C7, witness: the concrete row without a code cell is skipped and the
following row is processed unchanged. -/
theorem claim_C7_witness :
    processRows [] exCols (exRowNoCode :: [exRowA]) =
      ((processRows [] exCols [exRowA]).1,
        (processRows [] exCols [exRowA]).2.1 + 1,
        (processRows [] exCols [exRowA]).2.2) :=
  claim_C7_missing_code_skipped [] exCols exRowNoCode [exRowA] (by decide)

/-- C8, confirmed: when a mandatory field (`codigo`, `nome` or `co_uf`)
resolves to no column of the header, the whole chunk is skipped: the state is
unchanged except for the processed-row count and the resolver invocation
count — in particular the store, the insert total and the reports are
untouched — and the fold simply continues with the next chunk. -/
theorem claim_C8_unresolved_mandatory_skips_chunk (cfg : Cfg) (st : RunState)
    (rows : List RawRow)
    (h : find_column cfg.header CANDIDATE_COLUMNS_codigo = none ∨
         find_column cfg.header CANDIDATE_COLUMNS_nome = none ∨
         find_column cfg.header CANDIDATE_COLUMNS_co_uf = none) :
    processChunk cfg st rows =
      { st with processedTotal := st.processedTotal + rows.length,
                resolverCalls := st.resolverCalls + 1 } := by
  have hres : resolveCols cfg.header = none := by
    unfold resolveCols
    rcases h with h | h | h <;>
      cases h1 : find_column cfg.header CANDIDATE_COLUMNS_codigo <;>
      cases h2 : find_column cfg.header CANDIDATE_COLUMNS_nome <;>
      cases h3 : find_column cfg.header CANDIDATE_COLUMNS_co_uf <;>
      simp_all
  rw [processChunk_unresolved st rows hres]

/-- C8, witness: a header without any `CO_UF` candidate makes the chunk a
no-op apart from the processed and resolver counters. -/
theorem claim_C8_witness :
    processChunk exCfgNoUF (initState []) [exRowA] =
      { initState [] with processedTotal := 1, resolverCalls := 1 } :=
  claim_C8_unresolved_mandatory_skips_chunk exCfgNoUF (initState []) [exRowA]
    (Or.inr (Or.inr (by decide)))

/-- C9, confirmed: a retained row with a fresh business code is appended to
the insertion list whatever its enrollment cells hold (it is never discarded
for them), and each of the three enrollment fields whose column is
unresolved, whose cell is missing, or whose text fails integer coercion is
normalized to exactly 0. -/
theorem claim_C9_enroll_default_zero (db : List DBRow) (cols : ResolvedCols)
    (r : RawRow) (rs : List RawRow) (c : String)
    (hkey : r.get cols.codigo = some c) (hnew : containsCode db c = false) :
    (processRows db cols (r :: rs)).1 =
      normalizeRow cols r c :: (processRows db cols rs).1 ∧
    (enrollBad cols.qt_mat_bas r = true → (normalizeRow cols r c).qt_mat_bas = 0) ∧
    (enrollBad cols.qt_mat_prof r = true → (normalizeRow cols r c).qt_mat_prof = 0) ∧
    (enrollBad cols.qt_mat_esp r = true → (normalizeRow cols r c).qt_mat_esp = 0) := by
  refine ⟨?_, fun hb => coerceCol_bad hb, fun hb => coerceCol_bad hb,
    fun hb => coerceCol_bad hb⟩
  rw [processRows_cons_new rs hkey hnew]

/-- C9, witness: a row with unresolved basic-count column, missing
professional-count cell and unparsable special-count cell is still inserted
and all three fields normalize to 0. -/
theorem claim_C9_witness :
    (processRows [] exColsQt [exRowQt]).1 =
      normalizeRow exColsQt exRowQt "111" :: (processRows [] exColsQt []).1 ∧
    (normalizeRow exColsQt exRowQt "111").qt_mat_bas = 0 ∧
    (normalizeRow exColsQt exRowQt "111").qt_mat_prof = 0 ∧
    (normalizeRow exColsQt exRowQt "111").qt_mat_esp = 0 := by
  have h := claim_C9_enroll_default_zero [] exColsQt exRowQt [] "111"
    (by decide) (by decide)
  exact ⟨h.1, h.2.1 (by decide), h.2.2.1 (by decide), h.2.2.2 (by decide)⟩

/-- C10, confirmed: a row whose code is already stored before the chunk's
bulk write is excluded from the insertion list by the per-row existence
pre-check and counted as skipped (not as a duplicate); consequently every
submitted tuple has a code absent from the store, the bulk write inserts
exactly the first occurrence of each submitted code, and the chunk's
duplicate count (submitted minus inserted) equals the number of code repeats
within the submitted chunk itself. -/
theorem claim_C10_precheck_and_within_chunk_dups (db : List DBRow)
    (cols : ResolvedCols) (r : RawRow) (rs : List RawRow) (c : String)
    (h1 : r.get cols.codigo = some c) (h2 : containsCode db c = true) :
    processRows db cols (r :: rs) =
      ((processRows db cols rs).1, (processRows db cols rs).2.1 + 1,
        (processRows db cols rs).2.2 + 1) ∧
    ((processRows db cols rs).1.all fun t => !containsCode db t.codigo) = true ∧
    (processRows db cols rs).1.length -
        (insertOrIgnore db (processRows db cols rs).1).2 =
      dupWithin (processRows db cols rs).1 := by
  refine ⟨processRows_cons_hit rs h1 h2, ?_, ?_⟩
  · rw [List.all_eq_true]
    intro t ht
    simp [processRows_fresh rs t ht]
  · have hfresh : ∀ t ∈ (processRows db cols rs).1,
        containsCode db t.codigo = listHas [] t.codigo := by
      intro t ht
      rw [processRows_fresh rs t ht]; rfl
    rw [insertOrIgnore_count _ db [] hfresh]
    unfold dupWithin
    have := dupWithinAux_le (processRows db cols rs).1 []
    omega

/-- C10, witness: with code 111 already stored, the head row repeating 111 is
skipped by the pre-check while the two submitted rows with code 222 are fresh
and produce one insert and one within-chunk duplicate. -/
theorem claim_C10_witness :
    processRows exDb1 exCols (exRowADup :: [exRowB, exRowB]) =
      ((processRows exDb1 exCols [exRowB, exRowB]).1,
        (processRows exDb1 exCols [exRowB, exRowB]).2.1 + 1,
        (processRows exDb1 exCols [exRowB, exRowB]).2.2 + 1) ∧
    ((processRows exDb1 exCols [exRowB, exRowB]).1.all
        fun t => !containsCode exDb1 t.codigo) = true ∧
    (processRows exDb1 exCols [exRowB, exRowB]).1.length -
        (insertOrIgnore exDb1 (processRows exDb1 exCols [exRowB, exRowB]).1).2 =
      dupWithin (processRows exDb1 exCols [exRowB, exRowB]).1 :=
  claim_C10_precheck_and_within_chunk_dups exDb1 exCols exRowADup
    [exRowB, exRowB] "111" (by decide) (by decide)
